import Mathlib

/-!
Verification of the SSH certificate-authority core (smallstep Go sources
`api/ssh.go` and `authority/config.go`): the JSON/base64 wire codec for SSH
certificates and public keys, the SSHSign handler workflow, and the
configuration validation/defaulting engine.

Shallow embedding conventions:
* Go byte slices are `List Nat` with every element `< 256` (predicate `ValidBytes`).
* Go machine integers are `Nat` with explicit bounds where overflow matters.
* Fallible Go functions returning `error` become `Except`/`Option` values.
* Mutation through pointer receivers becomes explicit state passing: a
  validator returns the updated value alongside the error outcome.
-/

namespace Certificates

/-! ## Definitions -/

/-- Byte strings: lists of naturals intended to be `< 256`. -/
abbrev Bytes := List Nat

/-- Every element of the list is a byte value. -/
def ValidBytes (l : Bytes) : Prop := ∀ b ∈ l, b < 256

instance : DecidablePred ValidBytes := fun l =>
  inferInstanceAs (Decidable (∀ b ∈ l, b < 256))

/-- ASCII bytes of a string (used for SSH algorithm names, which are ASCII). -/
def asciiBytes (s : String) : Bytes := s.data.map Char.toNat

instance {ε α : Type} [DecidableEq ε] [DecidableEq α] : DecidableEq (Except ε α) :=
  fun x y =>
    match x, y with
    | .error a, .error b =>
        if h : a = b then isTrue (by rw [h]) else isFalse (by simp [h])
    | .ok a, .ok b =>
        if h : a = b then isTrue (by rw [h]) else isFalse (by simp [h])
    | .error _, .ok _ => isFalse (by simp)
    | .ok _, .error _ => isFalse (by simp)

/-! ### Base64 (standard alphabet, padded) — model of Go `encoding/base64.StdEncoding` -/

/-- The standard base64 alphabet: sextet value to character. -/
def b64Char (n : Nat) : Char :=
  if n < 26 then Char.ofNat (65 + n)        -- 'A'..'Z'
  else if n < 52 then Char.ofNat (71 + n)   -- 'a'..'z'
  else if n < 62 then Char.ofNat (n - 4)    -- '0'..'9'
  else if n = 62 then '+'
  else '/'

/-- Inverse of the standard base64 alphabet: character to sextet value. -/
def b64Val (c : Char) : Option Nat :=
  let n := c.toNat
  if 65 ≤ n ∧ n ≤ 90 then some (n - 65)
  else if 97 ≤ n ∧ n ≤ 122 then some (n - 71)
  else if 48 ≤ n ∧ n ≤ 57 then some (n + 4)
  else if n = 43 then some 62
  else if n = 47 then some 63
  else none

/-- Base64-encode a byte list, three bytes at a time, padding with `=`. -/
def b64EncodeChunks : Bytes → List Char
  | [] => []
  | [a] => [b64Char (a / 4), b64Char (a % 4 * 16), '=', '=']
  | [a, b] => [b64Char (a / 4), b64Char (a % 4 * 16 + b / 16), b64Char (b % 16 * 4), '=']
  | a :: b :: c :: rest =>
      b64Char (a / 4) :: b64Char (a % 4 * 16 + b / 16) ::
        b64Char (b % 16 * 4 + c / 64) :: b64Char (c % 64) :: b64EncodeChunks rest

/-- Base64-decode a character list, four characters at a time; `none` on any
malformed input (wrong length, invalid character, misplaced padding),
mirroring Go's `StdEncoding.DecodeString` (simplification: Go's skipping of
CR/LF characters inside the input is not modelled; like Go's default
encoding, non-zero trailing padding bits are accepted). -/
def b64DecodeChunks : List Char → Option Bytes
  | [] => some []
  | c0 :: c1 :: c2 :: c3 :: rest =>
      if c2 = '=' then
        if c3 = '=' ∧ rest = [] then
          match b64Val c0, b64Val c1 with
          | some a, some b => some [a * 4 + b / 16]
          | _, _ => none
        else none
      else if c3 = '=' then
        if rest = [] then
          match b64Val c0, b64Val c1, b64Val c2 with
          | some a, some b, some c => some [a * 4 + b / 16, b % 16 * 16 + c / 4]
          | _, _, _ => none
        else none
      else
        match b64Val c0, b64Val c1, b64Val c2, b64Val c3, b64DecodeChunks rest with
        | some a, some b, some c, some d, some bs =>
            some ((a * 4 + b / 16) :: (b % 16 * 16 + c / 4) :: (c % 4 * 64 + d) :: bs)
        | _, _, _, _, _ => none
  | _ => none

/-- Base64 encoding of bytes as a string. -/
def base64Encode (l : Bytes) : String := String.mk (b64EncodeChunks l)

/-- Base64 decoding of a string to bytes. -/
def base64Decode (s : String) : Option Bytes := b64DecodeChunks s.data

/-! ### JSON string scalar layer

Model of `encoding/json.Unmarshal(data, &s)` for a string target, as used by
`SSHCertificate.UnmarshalJSON` / `SSHPublicKey.UnmarshalJSON`. A JSON `null`
leaves the target string at its zero value `""`; a quoted string is unquoted.
Simplification: escape sequences are not modelled (they never occur in text
produced by the marshallers, whose payload is the base64 alphabet). -/

/-- Unquote the characters after an opening `"`: succeed only when the closing
`"` is the final character and no interior `"` or `\` occurs. -/
def unquoteInner : List Char → Option (List Char)
  | [] => none
  | c :: rest =>
      if c = '"' then (if rest = [] then some [] else none)
      else if c = '\\' then none
      else (unquoteInner rest).map (c :: ·)

/-- Model of Go `json.Unmarshal` into a `string` variable: `null` leaves the
zero value `""`; otherwise the input must be a quoted string. -/
def jsonUnmarshalString (text : String) : Option String :=
  if text = "null" then some ""
  else
    match text.data with
    | '"' :: rest => (unquoteInner rest).map String.mk
    | _ => none

/-! ### SSH binary wire format — model of `golang.org/x/crypto/ssh` marshalling

The library is external to this repository; it is modelled here with the same
structure as the real openssh wire format (big-endian length-prefixed fields,
an algorithm-name prefix that distinguishes certificates from bare keys, a
trailing-data check), over a representative field subset: bare keys carry one
key-material field, certificates carry the fields this repository's handler
reads (`CertType`, `ValidPrincipals`) plus serial, key id, key material and
the validity window. -/

/-- Big-endian 4-byte encoding of a 32-bit value. -/
def u32 (n : Nat) : Bytes :=
  [n / 16777216 % 256, n / 65536 % 256, n / 256 % 256, n % 256]

/-- Big-endian 8-byte encoding of a 64-bit value. -/
def u64 (n : Nat) : Bytes :=
  [n / 72057594037927936 % 256, n / 281474976710656 % 256, n / 1099511627776 % 256,
   n / 4294967296 % 256, n / 16777216 % 256, n / 65536 % 256, n / 256 % 256, n % 256]

/-- An SSH `string` field: 32-bit length prefix followed by the bytes. -/
def encString (s : Bytes) : Bytes := u32 s.length ++ s

/-- A packed sequence of SSH `string` fields with a 32-bit count prefix
(the certificate's valid-principals section). -/
def encStringList (ss : List Bytes) : Bytes :=
  u32 ss.length ++ (ss.map encString).flatten

/-- Read a big-endian 32-bit value. -/
def readU32 : Bytes → Option (Nat × Bytes)
  | a :: b :: c :: d :: rest => some (((a * 256 + b) * 256 + c) * 256 + d, rest)
  | _ => none

/-- Read a big-endian 64-bit value. -/
def readU64 : Bytes → Option (Nat × Bytes)
  | b0 :: b1 :: b2 :: b3 :: b4 :: b5 :: b6 :: b7 :: rest =>
      some (((((((b0 * 256 + b1) * 256 + b2) * 256 + b3) * 256 + b4) * 256 + b5)
        * 256 + b6) * 256 + b7, rest)
  | _ => none

/-- Read an SSH `string` field. -/
def readString (l : Bytes) : Option (Bytes × Bytes) :=
  match readU32 l with
  | none => none
  | some (n, rest) =>
      if n ≤ rest.length then some (rest.take n, rest.drop n) else none

/-- Read `n` consecutive SSH `string` fields. -/
def readStrings : Nat → Bytes → Option (List Bytes × Bytes)
  | 0, l => some ([], l)
  | n + 1, l =>
      match readString l with
      | none => none
      | some (s, l1) =>
          match readStrings n l1 with
          | none => none
          | some (ss, l2) => some (s :: ss, l2)

/-- SSH certificate value — model of `ssh.Certificate` restricted to a
representative field subset including everything `api/ssh.go` reads. -/
structure SSHCertData where
  key : Bytes
  serial : Nat
  certType : Nat
  keyId : Bytes
  validPrincipals : List Bytes
  validAfter : Nat
  validBefore : Nat
deriving DecidableEq

/-- A parsed SSH public key value — model of the dynamic type behind Go's
`ssh.PublicKey` interface: either a bare key or a certificate (a
`*ssh.Certificate` is itself an `ssh.PublicKey`). -/
inductive SSHPubKeyVal where
  | ed25519 (key : Bytes)
  | cert (c : SSHCertData)
deriving DecidableEq

/-- `ssh.UserCert` — certificate type constant for user certificates. -/
def sshUserCert : Nat := 1

/-- `ssh.HostCert` — certificate type constant for host certificates. -/
def sshHostCert : Nat := 2

/-- Algorithm name prefixing a marshalled certificate blob. -/
def certAlgoName : Bytes := asciiBytes "ssh-ed25519-cert-v01@openssh.com"

/-- Algorithm name prefixing a marshalled bare key blob. -/
def ed25519AlgoName : Bytes := asciiBytes "ssh-ed25519"

/-- Well-formedness of a certificate value: every byte field holds bytes and
every numeric field fits its machine width (automatic for the Go originals,
where these are `[]byte`, `uint32` and `uint64`). -/
def SSHCertData.WF (c : SSHCertData) : Prop :=
  ValidBytes c.key ∧ c.key.length < 4294967296 ∧
  c.serial < 18446744073709551616 ∧ c.certType < 4294967296 ∧
  ValidBytes c.keyId ∧ c.keyId.length < 4294967296 ∧
  (∀ p ∈ c.validPrincipals, ValidBytes p ∧ p.length < 4294967296) ∧
  c.validPrincipals.length < 4294967296 ∧
  c.validAfter < 18446744073709551616 ∧ c.validBefore < 18446744073709551616

instance : DecidablePred SSHCertData.WF := fun c => by
  unfold SSHCertData.WF; infer_instance

/-- Well-formedness of a public key value. -/
def SSHPubKeyVal.WF : SSHPubKeyVal → Prop
  | .ed25519 key => ValidBytes key ∧ key.length < 4294967296
  | .cert c => c.WF

instance : DecidablePred SSHPubKeyVal.WF := fun k => by
  cases k <;> (unfold SSHPubKeyVal.WF; infer_instance)

/-- The certificate body following the algorithm-name field. -/
def certBodyBytes (c : SSHCertData) : Bytes :=
  encString c.key ++ (u64 c.serial ++ (u32 c.certType ++ (encString c.keyId ++
    (encStringList c.validPrincipals ++ (u64 c.validAfter ++ u64 c.validBefore)))))

/-- Model of `(*ssh.Certificate).Marshal`: openssh wire encoding of the
certificate. -/
def marshalCert (c : SSHCertData) : Bytes :=
  encString certAlgoName ++ certBodyBytes c

/-- Model of `ssh.PublicKey.Marshal` on the dynamic value. -/
def marshalPub : SSHPubKeyVal → Bytes
  | .ed25519 key => encString ed25519AlgoName ++ encString key
  | .cert c => marshalCert c

/-- Failure modes of the modelled `ssh.ParsePublicKey`. -/
inductive ParseErr where
  | shortRead
  | unsupportedKeyType (algo : Bytes)
  | trailingData
deriving DecidableEq

/-- Parse the certificate body following the algorithm name. -/
def parseCertBody (l : Bytes) : Except ParseErr SSHCertData :=
  match readString l with
  | none => .error .shortRead
  | some (key, r1) =>
  match readU64 r1 with
  | none => .error .shortRead
  | some (serial, r2) =>
  match readU32 r2 with
  | none => .error .shortRead
  | some (ct, r3) =>
  match readString r3 with
  | none => .error .shortRead
  | some (keyId, r4) =>
  match readU32 r4 with
  | none => .error .shortRead
  | some (nPrincipals, r5) =>
  match readStrings nPrincipals r5 with
  | none => .error .shortRead
  | some (principals, r6) =>
  match readU64 r6 with
  | none => .error .shortRead
  | some (va, r7) =>
  match readU64 r7 with
  | none => .error .shortRead
  | some (vb, r8) =>
  if r8 = [] then .ok ⟨key, serial, ct, keyId, principals, va, vb⟩
  else .error .trailingData

/-- Model of `ssh.ParsePublicKey`: read the algorithm name, dispatch on it,
and reject trailing data or an unknown algorithm. -/
def parsePublicKey (l : Bytes) : Except ParseErr SSHPubKeyVal :=
  match readString l with
  | none => .error .shortRead
  | some (algo, rest) =>
      if algo = ed25519AlgoName then
        match readString rest with
        | none => .error .shortRead
        | some (key, r1) =>
            if r1 = [] then .ok (.ed25519 key) else .error .trailingData
      else if algo = certAlgoName then
        match parseCertBody rest with
        | .error e => .error e
        | .ok c => .ok (.cert c)
      else .error (.unsupportedKeyType algo)

/-! ### The response containers and their JSON codec (`api/ssh.go`) -/

/-- `SSHCertificate` — response wrapper around a possibly-nil `*ssh.Certificate`. -/
structure SSHCertificate where
  certificate : Option SSHCertData
deriving DecidableEq

/-- `SSHPublicKey` — response wrapper around a possibly-nil `ssh.PublicKey`. -/
structure SSHPublicKey where
  publicKey : Option SSHPubKeyVal
deriving DecidableEq

/-- Go's `%T` rendering of the dynamic type behind an `ssh.PublicKey` value,
as interpolated into the type-mismatch error of `SSHCertificate.UnmarshalJSON`. -/
def concreteTypeName : SSHPubKeyVal → String
  | .ed25519 _ => "ssh.ed25519PublicKey"
  | .cert _ => "*ssh.Certificate"

/-- Well-formedness of a certificate container. -/
def SSHCertificate.WF : SSHCertificate → Prop
  | ⟨none⟩ => True
  | ⟨some cert⟩ => cert.WF

instance : DecidablePred SSHCertificate.WF := fun c => by
  obtain ⟨_ | cert⟩ := c <;> (unfold SSHCertificate.WF; infer_instance)

/-- Well-formedness of a public-key container. -/
def SSHPublicKey.WF : SSHPublicKey → Prop
  | ⟨none⟩ => True
  | ⟨some k⟩ => k.WF

instance : DecidablePred SSHPublicKey.WF := fun p => by
  obtain ⟨_ | k⟩ := p <;> (unfold SSHPublicKey.WF; infer_instance)

/-- Failure modes of `SSHCertificate.UnmarshalJSON`, in source order:
`error decoding certificate` (JSON layer), `error decoding ssh certificate`
(base64 layer), `error parsing ssh certificate` (binary layer), and the
type-mismatch `%T is not an *ssh.Certificate`. Each error carries its
underlying cause. -/
inductive CertUnmarshalErr where
  | jsonDecode
  | base64Decode
  | parse (cause : ParseErr)
  | notACertificate (typeName : String)
deriving DecidableEq

/-- Failure modes of `SSHPublicKey.UnmarshalJSON`, in source order. -/
inductive KeyUnmarshalErr where
  | jsonDecode
  | base64Decode
  | parse (cause : ParseErr)
deriving DecidableEq

/-- `SSHCertificate.MarshalJSON`: `null` for a nil certificate, otherwise the
quoted base64 of the openssh wire encoding. -/
def SSHCertificate.marshalJSON (c : SSHCertificate) : String :=
  match c.certificate with
  | none => "null"
  | some cert => "\"" ++ base64Encode (marshalCert cert) ++ "\""

/-- `SSHCertificate.UnmarshalJSON`: JSON-decode a string, treat `""` as nil,
base64-decode, parse as a public key, and require a certificate. -/
def SSHCertificate.unmarshalJSON (data : String) : Except CertUnmarshalErr SSHCertificate :=
  match jsonUnmarshalString data with
  | none => .error .jsonDecode
  | some s =>
      if s = "" then .ok ⟨none⟩
      else
        match base64Decode s with
        | none => .error .base64Decode
        | some certData =>
            match parsePublicKey certData with
            | .error e => .error (.parse e)
            | .ok (.cert cert) => .ok ⟨some cert⟩
            | .ok pub => .error (.notACertificate (concreteTypeName pub))

/-- `SSHPublicKey.MarshalJSON`: `null` for a nil key, otherwise the quoted
base64 of the openssh wire encoding. -/
def SSHPublicKey.marshalJSON (p : SSHPublicKey) : String :=
  match p.publicKey with
  | none => "null"
  | some k => "\"" ++ base64Encode (marshalPub k) ++ "\""

/-- `SSHPublicKey.UnmarshalJSON`: JSON-decode a string, treat `""` as nil,
base64-decode, and parse as a public key. -/
def SSHPublicKey.unmarshalJSON (data : String) : Except KeyUnmarshalErr SSHPublicKey :=
  match jsonUnmarshalString data with
  | none => .error .jsonDecode
  | some s =>
      if s = "" then .ok ⟨none⟩
      else
        match base64Decode s with
        | none => .error .base64Decode
        | some bytes =>
            match parsePublicKey bytes with
            | .error e => .error (.parse e)
            | .ok pub => .ok ⟨some pub⟩

/-! ### The SSHSign workflow (`api/ssh.go`) -/

/-- Modelled from the spec: `provisioner.SSHUserCert`. The `provisioner`
package belongs to this repository but is outside the shown sources; the spec
fixes the certificate-type strings to "user" and "host". -/
def SSHUserCert : String := "user"

/-- Modelled from the spec: `provisioner.SSHHostCert`, the "host"
certificate-type string (see `SSHUserCert`). -/
def SSHHostCert : String := "host"

/-- Modelled from the spec: the HTTP status carried by the api package's
`BadRequest` error constructor (client error, 400). -/
def badRequestStatus : Nat := 400

/-- Modelled from the spec: the HTTP status carried by `Unauthorized`
(authorization failure, 401). -/
def unauthorizedStatus : Nat := 401

/-- Modelled from the spec: the HTTP status carried by `Forbidden`
(signing refused, 403). -/
def forbiddenStatus : Nat := 403

/-- `http.StatusCreated` (201), written by the handler on success. -/
def statusCreated : Nat := 201

/-- `SSHSignRequest` — the request body of an SSH certificate request.
`TimeDuration` fields are opaque to the handler and modelled as integers;
`addUserPublicKey` keeps Go's nil-vs-present distinction, which the handler
branches on. -/
structure SSHSignRequest where
  publicKey : Bytes
  ott : String
  certType : String
  principals : List String
  validAfter : Int
  validBefore : Int
  addUserPublicKey : Option Bytes
deriving DecidableEq

/-- `SSHSignRequest.Validate`: an unset certType is accepted, any other value
must be "user" or "host"; publicKey and ott must be non-empty. First failing
case of the switch wins. -/
def SSHSignRequest.validate (s : SSHSignRequest) : Except String Unit :=
  if s.certType ≠ "" ∧ s.certType ≠ SSHUserCert ∧ s.certType ≠ SSHHostCert then
    .error ("unknown certType " ++ s.certType)
  else if s.publicKey.length = 0 then .error "missing or empty publicKey"
  else if s.ott.length = 0 then .error "missing or empty ott"
  else .ok ()

/-- Opaque authorization-derived sign option (`provisioner.SignOption`). -/
abbrev SignOption := Nat

/-- `provisioner.SSHOptions` as assembled by the handler from the request. -/
structure SSHOptions where
  certType : String
  principals : List String
  validBefore : Int
  validAfter : Int
deriving DecidableEq

/-- The Signing Authority collaborator operations reached from `SSHSign`,
modelled as explicit function fields so a handler run is a pure function of
the collaborator's behavior. -/
structure SSHAuthorityModel where
  authorize : String → Except String (List SignOption)
  signSSH : SSHPubKeyVal → SSHOptions → List SignOption → Except String SSHCertData
  signSSHAddUser : SSHPubKeyVal → SSHCertData → Except String SSHCertData

/-- `SSHSignResponse` — certificate plus optional add-user certificate. -/
structure SSHSignResponse where
  certificate : SSHCertificate
  addUserCertificate : Option SSHCertificate
deriving DecidableEq

/-- Observable outcome of a handler run: `WriteError` with an HTTP status, or
a success status with the response value. -/
inductive HandlerOutcome where
  | errorOut (status : Nat)
  | success (status : Nat) (body : SSHSignResponse)
deriving DecidableEq

/-- The handler's optional add-user key parse: the parsed `addUserPublicKey`
variable stays nil when the request carried none (`body.AddUserPublicKey == nil`). -/
def parseAddUserKey : Option Bytes → Except ParseErr (Option SSHPubKeyVal)
  | none => .ok none
  | some bs =>
      match parsePublicKey bs with
      | .error e => .error e
      | .ok k => .ok (some k)

/-- `caHandler.SSHSign`: read body, validate, parse keys, authorize, sign,
conditionally issue the add-user certificate, and answer 201. The `body`
argument is the outcome of `ReadJSON` on the request body. -/
def sshSign (auth : SSHAuthorityModel) (body : Except String SSHSignRequest) :
    HandlerOutcome :=
  match body with
  | .error _ => .errorOut badRequestStatus
  | .ok req =>
  match req.validate with
  | .error _ => .errorOut badRequestStatus
  | .ok _ =>
  match parsePublicKey req.publicKey with
  | .error _ => .errorOut badRequestStatus
  | .ok publicKey =>
  match parseAddUserKey req.addUserPublicKey with
  | .error _ => .errorOut badRequestStatus
  | .ok addUserKey =>
  match auth.authorize req.ott with
  | .error _ => .errorOut unauthorizedStatus
  | .ok signOpts =>
  match auth.signSSH publicKey
      ⟨req.certType, req.principals, req.validBefore, req.validAfter⟩ signOpts with
  | .error _ => .errorOut forbiddenStatus
  | .ok cert =>
  match addUserKey with
  | some k =>
      if cert.certType = sshUserCert ∧ cert.validPrincipals.length = 1 then
        match auth.signSSHAddUser k cert with
        | .error _ => .errorOut forbiddenStatus
        | .ok addUserCert =>
            .success statusCreated ⟨⟨some cert⟩, some ⟨some addUserCert⟩⟩
      else .success statusCreated ⟨⟨some cert⟩, none⟩
  | none => .success statusCreated ⟨⟨some cert⟩, none⟩

/-- A fixed user certificate with one valid principal, for concrete runs. -/
def certUW : SSHCertData := ⟨[1], 0, 1, [], [[97]], 0, 0⟩

/-- A collaborator that authorizes and signs everything, answering `certUW`
and echoing the base certificate for add-user signing. -/
def authorityOkW : SSHAuthorityModel :=
  ⟨fun _ => .ok [], fun _ _ _ => .ok certUW, fun _ c => .ok c⟩

/-- A collaborator whose authorization always fails. -/
def authorityAuthFailW : SSHAuthorityModel :=
  ⟨fun _ => .error "token rejected", fun _ _ _ => .ok certUW, fun _ c => .ok c⟩

/-- A collaborator that authorizes but refuses to sign. -/
def authoritySignFailW : SSHAuthorityModel :=
  ⟨fun _ => .ok [], fun _ _ _ => .error "policy refused", fun _ c => .ok c⟩

/-- A collaborator that signs but refuses add-user signing. -/
def authorityAddUserFailW : SSHAuthorityModel :=
  ⟨fun _ => .ok [], fun _ _ _ => .ok certUW, fun _ _ => .error "refused"⟩

/-- A well-formed sign request carrying an add-user key. -/
def reqAddUserW : SSHSignRequest :=
  ⟨marshalPub (.ed25519 [1, 2, 3]), "ott-token", "", [], 0, 0,
    some (marshalPub (.ed25519 [4]))⟩

/-- A well-formed sign request with no add-user key. -/
def reqPlainW : SSHSignRequest :=
  ⟨marshalPub (.ed25519 [1, 2, 3]), "ott-token", "", [], 0, 0, none⟩

/-! ### Configuration model (`authority/config.go`) -/

/-- `x509util.CipherSuites` — ordered cipher-suite name strings. -/
abbrev CipherSuites := List String

/-- `tlsutil.TLSOptions` (external `smallstep/cli` type). The TLS version
fields are Go float64 values that the validator only compares for equality
with zero, orders, and copies — never combines arithmetically — so they are
modelled as rationals. -/
structure TLSOptions where
  cipherSuites : CipherSuites
  minVersion : Rat
  maxVersion : Rat
  renegotiation : Bool
deriving DecidableEq

/-- `DefaultTLSOptions` — the built-in default TLS policy (the Go float64
version literals 1.2 are the rational 12/10). -/
def DefaultTLSOptions : TLSOptions :=
  { cipherSuites :=
      ["TLS_ECDHE_ECDSA_WITH_CHACHA20_POLY1305",
       "TLS_ECDHE_RSA_WITH_AES_128_GCM_SHA256",
       "TLS_ECDHE_ECDSA_WITH_AES_256_GCM_SHA384"],
    minVersion := mkRat 12 10,
    maxVersion := mkRat 12 10,
    renegotiation := false }

/-- `x509util.ASN1DN` (external) — distinguished-name template; the empty
template has every field at its zero value. -/
structure ASN1DN where
  country : String := ""
  organization : String := ""
  organizationalUnit : String := ""
  locality : String := ""
  province : String := ""
  streetAddress : String := ""
  commonName : String := ""
deriving DecidableEq

/-- `jose.JSONWebKey` (external), opaque to the config validator. -/
structure JSONWebKey where
  raw : String := ""
deriving DecidableEq

/-- `time.Duration` — int64 nanoseconds, opaque to validation. -/
abbrev Duration := Int

/-- `Provisioner` — authorized entity that can sign tokens. -/
structure Provisioner where
  issuer : String := ""
  type : String := ""
  key : Option JSONWebKey := none
  encryptedKey : String := ""
deriving DecidableEq

/-- `AuthConfig` — configuration options for the authority. -/
structure AuthConfig where
  provisioners : List Provisioner
  template : Option ASN1DN
  minCertDuration : Option Duration
  maxCertDuration : Option Duration
deriving DecidableEq

/-- `Config` — the CA configuration document. `json.RawMessage` fields are
opaque optional payloads. -/
structure Config where
  root : String
  intermediateCert : String
  intermediateKey : String
  address : String
  dnsNames : List String
  logger : Option String
  monitoring : Option String
  authorityConfig : Option AuthConfig
  tls : Option TLSOptions
  password : String
deriving DecidableEq

/-- `AuthConfig.Validate` on its possibly-nil pointer receiver. Mutation of
the receiver becomes explicit: the pair holds the receiver after the call and
the error outcome (`none` = success). -/
def AuthConfig.validate : Option AuthConfig → Option AuthConfig × Option String
  | none => (none, some "authority cannot be undefined")
  | some c =>
      if c.provisioners.length = 0 then
        (some c, some "authority.provisioners cannot be empty")
      else
        match c.template with
        | none => (some { c with template := some {} }, none)
        | some _ => (some c, none)

/-- The cipherSuites / maxVersion / minVersion defaulting chain applied by
`Config.Validate` when a TLS policy is configured, in source order. -/
def tlsApplyDefaults (t : TLSOptions) : TLSOptions :=
  let t1 :=
    if t.cipherSuites.length = 0 then
      { t with cipherSuites := DefaultTLSOptions.cipherSuites }
    else t
  let t2 :=
    if t1.maxVersion = 0 then { t1 with maxVersion := DefaultTLSOptions.maxVersion }
    else t1
  if t2.minVersion = 0 then { t2 with minVersion := t2.maxVersion } else t2

/-- The final authority-policy step of `Config.Validate`. -/
def Config.validateAuthority (c : Config) : Config × Option String :=
  match AuthConfig.validate c.authorityConfig with
  | (ac, e) => ({ c with authorityConfig := ac }, e)

/-- `Config.Validate`: required fields in order, then TLS defaulting and the
min/max constraint, then authority-policy validation. The pair holds the
document after the call (the receiver, mutated through pointers in Go) and
the error outcome (`none` = success). -/
def Config.validate (c : Config) : Config × Option String :=
  if c.address = "" then (c, some "address cannot be empty")
  else if c.root = "" then (c, some "root cannot be empty")
  else if c.intermediateCert = "" then (c, some "crt cannot be empty")
  else if c.intermediateKey = "" then (c, some "key cannot be empty")
  else if c.dnsNames.length = 0 then (c, some "dnsNames cannot be empty")
  else
    match c.tls with
    | none => Config.validateAuthority { c with tls := some DefaultTLSOptions }
    | some t =>
        let t3 := tlsApplyDefaults t
        if t3.minVersion > t3.maxVersion then
          ({ c with tls := some t3 }, some "tls minVersion cannot exceed tls maxVersion")
        else
          let t4 : TLSOptions :=
            { t3 with renegotiation := t3.renegotiation || DefaultTLSOptions.renegotiation }
          Config.validateAuthority { c with tls := some t4 }

/-! ## Theorems -/

theorem b64Val_b64Char : ∀ n < 64, b64Val (b64Char n) = some n := by decide

theorem b64Char_ne_eq (n : Nat) (hn : n < 64) : b64Char n ≠ '=' := by
  intro h
  have h1 := b64Val_b64Char n hn
  rw [h] at h1
  simp [b64Val] at h1

theorem b64_decode_encode :
    ∀ l : Bytes, ValidBytes l → b64DecodeChunks (b64EncodeChunks l) = some l
  | [], _ => rfl
  | [a], h => by
      have ha : a < 256 := h a (by simp)
      simp only [b64EncodeChunks, b64DecodeChunks, and_self, if_true]
      rw [b64Val_b64Char (a / 4) (by omega), b64Val_b64Char (a % 4 * 16) (by omega)]
      simp only [Option.some.injEq, List.cons.injEq, and_true]
      omega
  | [a, b], h => by
      have ha : a < 256 := h a (by simp)
      have hb : b < 256 := h b (by simp)
      simp only [b64EncodeChunks, b64DecodeChunks]
      rw [if_neg (b64Char_ne_eq (b % 16 * 4) (by omega))]
      rw [b64Val_b64Char (a / 4) (by omega), b64Val_b64Char (a % 4 * 16 + b / 16) (by omega),
        b64Val_b64Char (b % 16 * 4) (by omega)]
      simp only [if_true, Option.some.injEq, List.cons.injEq, and_true]
      constructor <;> omega
  | a :: b :: c :: rest, h => by
      have ha : a < 256 := h a (by simp)
      have hb : b < 256 := h b (by simp)
      have hc : c < 256 := h c (by simp)
      have hrest : ValidBytes rest := fun x hx => h x (by simp [hx])
      have ih := b64_decode_encode rest hrest
      simp only [b64EncodeChunks, b64DecodeChunks]
      rw [if_neg (b64Char_ne_eq (b % 16 * 4 + c / 64) (by omega)),
        if_neg (b64Char_ne_eq (c % 64) (by omega))]
      rw [b64Val_b64Char (a / 4) (by omega), b64Val_b64Char (a % 4 * 16 + b / 16) (by omega),
        b64Val_b64Char (b % 16 * 4 + c / 64) (by omega), b64Val_b64Char (c % 64) (by omega), ih]
      simp only [Option.some.injEq, List.cons.injEq, and_true]
      refine ⟨by omega, by omega, by omega⟩

/-- Characters emitted by the base64 encoder are never `"` or `\`. -/
theorem b64EncodeChunks_safe :
    ∀ l : Bytes, ValidBytes l → ∀ c ∈ b64EncodeChunks l, c ≠ '"' ∧ c ≠ '\\' := by
  have hch : ∀ n < 64, b64Char n ≠ '"' ∧ b64Char n ≠ '\\' := by decide
  have heq : ('=' : Char) ≠ '"' ∧ ('=' : Char) ≠ '\\' := by decide
  intro l
  induction l using b64EncodeChunks.induct with
  | case1 => intro _ c hc; simp [b64EncodeChunks] at hc
  | case2 a =>
      intro h c hc
      have ha : a < 256 := h a (by simp)
      simp only [b64EncodeChunks, List.mem_cons, List.not_mem_nil, or_false] at hc
      rcases hc with h | h | h | h <;> subst h
      · exact hch _ (by omega)
      · exact hch _ (by omega)
      · exact heq
      · exact heq
  | case3 a b =>
      intro h c hc
      have ha : a < 256 := h a (by simp)
      have hb : b < 256 := h b (by simp)
      simp only [b64EncodeChunks, List.mem_cons, List.not_mem_nil, or_false] at hc
      rcases hc with h | h | h | h <;> subst h
      · exact hch _ (by omega)
      · exact hch _ (by omega)
      · exact hch _ (by omega)
      · exact heq
  | case4 a b c rest ih =>
      intro h x hx
      have ha : a < 256 := h a (by simp)
      have hb : b < 256 := h b (by simp)
      have hc' : c < 256 := h c (by simp)
      have hrest : ValidBytes rest := fun y hy => h y (by simp [hy])
      simp only [b64EncodeChunks, List.mem_cons] at hx
      rcases hx with hx | hx | hx | hx | hx
      · subst hx; exact hch _ (by omega)
      · subst hx; exact hch _ (by omega)
      · subst hx; exact hch _ (by omega)
      · subst hx; exact hch _ (by omega)
      · exact ih hrest x hx

theorem unquoteInner_append (mid : List Char)
    (hmid : ∀ c ∈ mid, c ≠ '"' ∧ c ≠ '\\') :
    unquoteInner (mid ++ ['"']) = some mid := by
  induction mid with
  | nil => rfl
  | cons c rest ih =>
      have hc := hmid c (by simp)
      have hrest : ∀ x ∈ rest, x ≠ '"' ∧ x ≠ '\\' := fun x hx => hmid x (by simp [hx])
      simp only [List.cons_append, unquoteInner, if_neg hc.1, if_neg hc.2]
      show (unquoteInner (rest ++ ['"'])).map (c :: ·) = some (c :: rest)
      rw [ih hrest]
      rfl

theorem readU32_u32 (n : Nat) (h : n < 4294967296) (r : Bytes) :
    readU32 (u32 n ++ r) = some (n, r) := by
  simp only [u32, List.cons_append, List.nil_append, readU32, Option.some.injEq, Prod.mk.injEq,
    and_true]
  omega

theorem readU64_u64 (n : Nat) (h : n < 18446744073709551616) (r : Bytes) :
    readU64 (u64 n ++ r) = some (n, r) := by
  simp only [u64, List.cons_append, List.nil_append, readU64, Option.some.injEq, Prod.mk.injEq,
    and_true]
  omega

theorem readString_encString (s : Bytes) (h : s.length < 4294967296) (r : Bytes) :
    readString (encString s ++ r) = some (s, r) := by
  simp only [encString, List.append_assoc, readString, readU32_u32 s.length h (s ++ r)]
  rw [if_pos (by simp)]
  simp

theorem readStrings_encStringList (ss : List Bytes)
    (h : ∀ s ∈ ss, s.length < 4294967296) (r : Bytes) :
    readStrings ss.length ((ss.map encString).flatten ++ r) = some (ss, r) := by
  induction ss with
  | nil => simp [readStrings]
  | cons s rest ih =>
      have hs : s.length < 4294967296 := h s (by simp)
      have hrest : ∀ x ∈ rest, x.length < 4294967296 := fun x hx => h x (by simp [hx])
      simp only [List.length_cons, List.map_cons, List.flatten_cons, List.append_assoc,
        readStrings, readString_encString s hs _, ih hrest]

theorem readU64_u64_nil (n : Nat) (h : n < 18446744073709551616) :
    readU64 (u64 n) = some (n, []) := by
  have := readU64_u64 n h []
  rwa [List.append_nil] at this

theorem readString_encString_nil (s : Bytes) (h : s.length < 4294967296) :
    readString (encString s) = some (s, []) := by
  have := readString_encString s h []
  rwa [List.append_nil] at this

theorem parseCertBody_certBodyBytes (c : SSHCertData) (h : c.WF) :
    parseCertBody (certBodyBytes c) = .ok c := by
  obtain ⟨hkeyV, hkeyL, hserial, hct, hkidV, hkidL, hprV, hprL, hva, hvb⟩ := h
  simp only [certBodyBytes, encStringList, List.append_assoc, parseCertBody,
    readString_encString c.key hkeyL, readU64_u64 c.serial hserial,
    readU32_u32 c.certType hct, readString_encString c.keyId hkidL,
    readU32_u32 c.validPrincipals.length hprL,
    readStrings_encStringList c.validPrincipals (fun s hs => (hprV s hs).2),
    readU64_u64 c.validAfter hva, readU64_u64_nil c.validBefore hvb, if_true]

theorem parsePublicKey_marshalPub (k : SSHPubKeyVal) (h : k.WF) :
    parsePublicKey (marshalPub k) = .ok k := by
  cases k with
  | ed25519 key =>
      obtain ⟨hV, hL⟩ := h
      have hname : ed25519AlgoName.length < 4294967296 := by decide
      simp only [marshalPub, parsePublicKey, readString_encString ed25519AlgoName hname,
        if_pos rfl, readString_encString_nil key hL, if_true]
  | cert c =>
      have hname : certAlgoName.length < 4294967296 := by decide
      have hne : certAlgoName ≠ ed25519AlgoName := by decide
      simp only [marshalPub, marshalCert, parsePublicKey,
        readString_encString certAlgoName hname, if_neg hne, if_pos rfl,
        parseCertBody_certBodyBytes c h, if_true]

theorem validBytes_append {a b : Bytes} (ha : ValidBytes a) (hb : ValidBytes b) :
    ValidBytes (a ++ b) := by
  intro x hx
  rcases List.mem_append.mp hx with h | h
  · exact ha x h
  · exact hb x h

theorem validBytes_u32 (n : Nat) : ValidBytes (u32 n) := by
  intro b hb
  simp only [u32, List.mem_cons, List.not_mem_nil, or_false] at hb
  rcases hb with h | h | h | h <;> subst h <;> omega

theorem validBytes_u64 (n : Nat) : ValidBytes (u64 n) := by
  intro b hb
  simp only [u64, List.mem_cons, List.not_mem_nil, or_false] at hb
  rcases hb with h | h | h | h | h | h | h | h <;> subst h <;> omega

theorem validBytes_encString {s : Bytes} (hs : ValidBytes s) :
    ValidBytes (encString s) :=
  validBytes_append (validBytes_u32 _) hs

theorem validBytes_encStringList {ss : List Bytes} (hs : ∀ s ∈ ss, ValidBytes s) :
    ValidBytes (encStringList ss) := by
  refine validBytes_append (validBytes_u32 _) ?_
  intro b hb
  obtain ⟨l, hl, hbl⟩ := List.mem_flatten.mp hb
  obtain ⟨s, hsmem, rfl⟩ := List.mem_map.mp hl
  exact validBytes_encString (hs s hsmem) b hbl

theorem validBytes_marshalCert {c : SSHCertData} (h : c.WF) :
    ValidBytes (marshalCert c) := by
  obtain ⟨hkeyV, _, _, _, hkidV, _, hprV, _, _, _⟩ := h
  refine validBytes_append (validBytes_encString (by decide)) ?_
  refine validBytes_append (validBytes_encString hkeyV) ?_
  refine validBytes_append (validBytes_u64 _) ?_
  refine validBytes_append (validBytes_u32 _) ?_
  refine validBytes_append (validBytes_encString hkidV) ?_
  refine validBytes_append (validBytes_encStringList fun s hs => (hprV s hs).1) ?_
  exact validBytes_append (validBytes_u64 _) (validBytes_u64 _)

theorem validBytes_marshalPub {k : SSHPubKeyVal} (h : k.WF) :
    ValidBytes (marshalPub k) := by
  cases k with
  | ed25519 key =>
      exact validBytes_append (validBytes_encString (by decide))
        (validBytes_encString h.1)
  | cert c => exact validBytes_marshalCert h

theorem marshalPub_ne_nil (k : SSHPubKeyVal) : marshalPub k ≠ [] := by
  cases k <;> simp [marshalPub, marshalCert, certBodyBytes, encString, u32]

theorem b64EncodeChunks_ne_nil {l : Bytes} (h : l ≠ []) : b64EncodeChunks l ≠ [] := by
  match l with
  | [] => exact absurd rfl h
  | [a] => simp [b64EncodeChunks]
  | [a, b] => simp [b64EncodeChunks]
  | a :: b :: c :: rest => simp [b64EncodeChunks]

theorem data_append (s t : String) : (s ++ t).data = s.data ++ t.data := rfl

theorem jsonUnmarshalString_quoted (bytes : Bytes) (hv : ValidBytes bytes) :
    jsonUnmarshalString ("\"" ++ base64Encode bytes ++ "\"") =
      some (base64Encode bytes) := by
  have hdata : ("\"" ++ base64Encode bytes ++ "\"").data =
      '"' :: (b64EncodeChunks bytes ++ ['"']) := by
    rw [data_append, data_append]
    rfl
  have hnull : ("\"" ++ base64Encode bytes ++ "\"") ≠ "null" := by
    intro h
    have : ("\"" ++ base64Encode bytes ++ "\"").data = "null".data := by rw [h]
    rw [hdata] at this
    simp at this
  rw [jsonUnmarshalString, if_neg hnull, hdata]
  show Option.map String.mk (unquoteInner (b64EncodeChunks bytes ++ ['"'])) =
    some (base64Encode bytes)
  rw [unquoteInner_append _ (b64EncodeChunks_safe bytes hv)]
  rfl

theorem base64Encode_ne_empty {bytes : Bytes} (h : bytes ≠ []) :
    base64Encode bytes ≠ "" := by
  intro he
  have : (base64Encode bytes).data = "".data := by rw [he]
  exact b64EncodeChunks_ne_nil h this

theorem base64Decode_base64Encode (bytes : Bytes) (hv : ValidBytes bytes) :
    base64Decode (base64Encode bytes) = some bytes :=
  b64_decode_encode bytes hv

theorem marshalCert_ne_nil (c : SSHCertData) : marshalCert c ≠ [] := by
  simp [marshalCert, encString, u32]

theorem cert_unmarshal_marshal (c : SSHCertificate) (h : c.WF) :
    SSHCertificate.unmarshalJSON c.marshalJSON = .ok c := by
  obtain ⟨_ | cert⟩ := c
  · rfl
  · have hWF : cert.WF := h
    have hv := validBytes_marshalCert hWF
    have hparse : parsePublicKey (marshalCert cert) = .ok (.cert cert) :=
      parsePublicKey_marshalPub (.cert cert) hWF
    simp only [SSHCertificate.marshalJSON, SSHCertificate.unmarshalJSON,
      jsonUnmarshalString_quoted _ hv,
      if_neg (base64Encode_ne_empty (marshalCert_ne_nil cert)),
      base64Decode_base64Encode _ hv, hparse]

theorem key_unmarshal_marshal (p : SSHPublicKey) (h : p.WF) :
    SSHPublicKey.unmarshalJSON p.marshalJSON = .ok p := by
  obtain ⟨_ | k⟩ := p
  · rfl
  · have hWF : k.WF := h
    have hv := validBytes_marshalPub hWF
    have hparse : parsePublicKey (marshalPub k) = .ok k :=
      parsePublicKey_marshalPub k hWF
    simp only [SSHPublicKey.marshalJSON, SSHPublicKey.unmarshalJSON,
      jsonUnmarshalString_quoted _ hv,
      if_neg (base64Encode_ne_empty (marshalPub_ne_nil k)),
      base64Decode_base64Encode _ hv, hparse]

/-- C2: decoding the text produced by encoding any certificate container or
public-key container (including the nil value) returns a structurally equal
value; and for any text previously produced by the encoder, encoding the
result of decoding that text reproduces the text exactly. -/
theorem claim_C2_codec_roundtrip :
    (∀ c : SSHCertificate, c.WF →
      SSHCertificate.unmarshalJSON c.marshalJSON = .ok c) ∧
    (∀ p : SSHPublicKey, p.WF →
      SSHPublicKey.unmarshalJSON p.marshalJSON = .ok p) ∧
    (∀ (c : SSHCertificate) (text : String), c.WF → c.marshalJSON = text →
      ∃ c', SSHCertificate.unmarshalJSON text = .ok c' ∧
        SSHCertificate.marshalJSON c' = text) ∧
    (∀ (p : SSHPublicKey) (text : String), p.WF → p.marshalJSON = text →
      ∃ p', SSHPublicKey.unmarshalJSON text = .ok p' ∧
        SSHPublicKey.marshalJSON p' = text) := by
  refine ⟨cert_unmarshal_marshal, key_unmarshal_marshal, ?_, ?_⟩
  · rintro c text h rfl
    exact ⟨c, cert_unmarshal_marshal c h, rfl⟩
  · rintro p text h rfl
    exact ⟨p, key_unmarshal_marshal p h, rfl⟩

theorem claim_C2_codec_roundtrip_witness :
    SSHCertificate.unmarshalJSON (SSHCertificate.marshalJSON
        ⟨some ⟨[1, 2, 3], 5, 1, [107, 101, 121], [[114, 111, 111, 116]], 0, 99⟩⟩) =
      .ok ⟨some ⟨[1, 2, 3], 5, 1, [107, 101, 121], [[114, 111, 111, 116]], 0, 99⟩⟩ ∧
    SSHPublicKey.unmarshalJSON (SSHPublicKey.marshalJSON ⟨some (.ed25519 [1, 2, 3])⟩) =
      .ok ⟨some (.ed25519 [1, 2, 3])⟩ ∧
    (∃ c', SSHCertificate.unmarshalJSON (SSHCertificate.marshalJSON ⟨none⟩) = .ok c' ∧
      SSHCertificate.marshalJSON c' = SSHCertificate.marshalJSON ⟨none⟩) ∧
    (∃ p', SSHPublicKey.unmarshalJSON (SSHPublicKey.marshalJSON ⟨none⟩) = .ok p' ∧
      SSHPublicKey.marshalJSON p' = SSHPublicKey.marshalJSON ⟨none⟩) :=
  ⟨claim_C2_codec_roundtrip.1 _ (by decide),
   claim_C2_codec_roundtrip.2.1 _ (by decide),
   claim_C2_codec_roundtrip.2.2.1 _ _ (by decide) rfl,
   claim_C2_codec_roundtrip.2.2.2 _ _ (by decide) rfl⟩

/-- C3: decoding the JSON empty string sets the contained certificate
(resp. public key) to nil and returns no error. -/
theorem claim_C3_empty_string_decodes_to_nil :
    SSHCertificate.unmarshalJSON "\"\"" = .ok ⟨none⟩ ∧
    SSHPublicKey.unmarshalJSON "\"\"" = .ok ⟨none⟩ := by
  exact ⟨rfl, rfl⟩

/-- C4: via the certificate container, input text carrying a structurally
valid public key that is not a certificate is rejected with an error naming
the concrete type found; any base64-decode or binary-parse failure is the
corresponding decode error carrying its underlying cause. -/
theorem claim_C4_cert_decode_errors :
    (∀ (text s : String) (bytes key : Bytes),
      jsonUnmarshalString text = some s → s ≠ "" →
      base64Decode s = some bytes →
      parsePublicKey bytes = .ok (.ed25519 key) →
      SSHCertificate.unmarshalJSON text =
        .error (.notACertificate (concreteTypeName (.ed25519 key)))) ∧
    (∀ (text s : String),
      jsonUnmarshalString text = some s → s ≠ "" → base64Decode s = none →
      SSHCertificate.unmarshalJSON text = .error .base64Decode) ∧
    (∀ (text s : String) (bytes : Bytes) (e : ParseErr),
      jsonUnmarshalString text = some s → s ≠ "" →
      base64Decode s = some bytes → parsePublicKey bytes = .error e →
      SSHCertificate.unmarshalJSON text = .error (.parse e)) := by
  refine ⟨?_, ?_, ?_⟩
  · intro text s bytes key h1 h2 h3 h4
    simp only [SSHCertificate.unmarshalJSON, h1, if_neg h2, h3, h4]
  · intro text s h1 h2 h3
    simp only [SSHCertificate.unmarshalJSON, h1, if_neg h2, h3]
  · intro text s bytes e h1 h2 h3 h4
    simp only [SSHCertificate.unmarshalJSON, h1, if_neg h2, h3, h4]

theorem claim_C4_cert_decode_errors_witness :
    SSHCertificate.unmarshalJSON (SSHPublicKey.marshalJSON ⟨some (.ed25519 [1, 2, 3])⟩) =
      .error (.notACertificate "ssh.ed25519PublicKey") ∧
    SSHCertificate.unmarshalJSON "\"!\"" = .error .base64Decode ∧
    SSHCertificate.unmarshalJSON "\"AAAAAA==\"" =
      .error (.parse (.unsupportedKeyType [])) :=
  ⟨claim_C4_cert_decode_errors.1 _ (base64Encode (marshalPub (.ed25519 [1, 2, 3])))
      (marshalPub (.ed25519 [1, 2, 3])) [1, 2, 3]
      (by decide) (by decide) (by decide) (by decide),
   claim_C4_cert_decode_errors.2.1 _ "!" (by decide) (by decide) (by decide),
   claim_C4_cert_decode_errors.2.2 _ "AAAAAA==" [0, 0, 0, 0] (.unsupportedKeyType [])
      (by decide) (by decide) (by decide) (by decide)⟩

/-- C1: once the workflow reaches a successful SignSSH, SignSSHAddUser is
called and the response's addUserCertificate is populated iff an add-user key
was supplied, the issued certificate has type user, and it has exactly one
valid principal (failure of SignSSHAddUser being an access-denial outcome);
in every other combination the response carries no addUserCertificate and is
still a success, not an error. -/
theorem claim_C1_addUser_policy (auth : SSHAuthorityModel) (req : SSHSignRequest)
    (pk : SSHPubKeyVal) (oak : Option SSHPubKeyVal) (opts : List SignOption)
    (cert : SSHCertData)
    (hval : req.validate = .ok ())
    (hpk : parsePublicKey req.publicKey = .ok pk)
    (hoak : parseAddUserKey req.addUserPublicKey = .ok oak)
    (hauth : auth.authorize req.ott = .ok opts)
    (hsign : auth.signSSH pk
      ⟨req.certType, req.principals, req.validBefore, req.validAfter⟩ opts = .ok cert) :
    (∀ k, oak = some k →
      cert.certType = sshUserCert → cert.validPrincipals.length = 1 →
      sshSign auth (.ok req) =
        match auth.signSSHAddUser k cert with
        | .error _ => .errorOut forbiddenStatus
        | .ok addUserCert =>
            .success statusCreated ⟨⟨some cert⟩, some ⟨some addUserCert⟩⟩) ∧
    (¬(oak ≠ none ∧ cert.certType = sshUserCert ∧ cert.validPrincipals.length = 1) →
      sshSign auth (.ok req) = .success statusCreated ⟨⟨some cert⟩, none⟩) := by
  constructor
  · intro k hk h1 h2
    subst hk
    simp only [sshSign, hval, hpk, hoak, hauth, hsign, if_pos (And.intro h1 h2)]
  · intro hneg
    rcases oak with _ | k
    · simp only [sshSign, hval, hpk, hoak, hauth, hsign]
    · have hcond : ¬(cert.certType = sshUserCert ∧ cert.validPrincipals.length = 1) :=
        fun hab => hneg ⟨Option.some_ne_none k, hab⟩
      simp only [sshSign, hval, hpk, hoak, hauth, hsign, if_neg hcond]

theorem claim_C1_addUser_policy_witness :
    sshSign authorityOkW (.ok reqAddUserW) =
      .success statusCreated ⟨⟨some certUW⟩, some ⟨some certUW⟩⟩ ∧
    sshSign authorityOkW (.ok reqPlainW) =
      .success statusCreated ⟨⟨some certUW⟩, none⟩ :=
  ⟨(claim_C1_addUser_policy authorityOkW reqAddUserW (.ed25519 [1, 2, 3])
      (some (.ed25519 [4])) [] certUW rfl rfl rfl rfl rfl).1
      (.ed25519 [4]) rfl rfl rfl,
   (claim_C1_addUser_policy authorityOkW reqPlainW (.ed25519 [1, 2, 3])
      none [] certUW rfl rfl rfl rfl rfl).2 (by simp)⟩

/-- C7: Sign Request validation accepts an unset certType, rejects any other
certType not "user"/"host" with an error naming the value, rejects an empty
publicKey, rejects an empty ott, and accepts a request meeting all three
conditions. -/
theorem claim_C7_sign_request_validation (s : SSHSignRequest) :
    (s.certType ≠ "" ∧ s.certType ≠ "user" ∧ s.certType ≠ "host" →
      s.validate = .error ("unknown certType " ++ s.certType)) ∧
    ((s.certType = "" ∨ s.certType = "user" ∨ s.certType = "host") →
      s.publicKey = [] → s.validate = .error "missing or empty publicKey") ∧
    ((s.certType = "" ∨ s.certType = "user" ∨ s.certType = "host") →
      s.publicKey ≠ [] → s.ott = "" → s.validate = .error "missing or empty ott") ∧
    ((s.certType = "" ∨ s.certType = "user" ∨ s.certType = "host") →
      s.publicKey ≠ [] → s.ott ≠ "" → s.validate = .ok ()) := by
  have hlen : ∀ t : String, t.length = 0 ↔ t = "" := by
    intro t
    rw [← String.length_data, List.length_eq_zero]
    exact ⟨fun h => String.ext h, fun h => by rw [h]⟩
  refine ⟨?_, ?_, ?_, ?_⟩
  · intro h
    simp only [SSHSignRequest.validate, SSHUserCert, SSHHostCert]
    rw [if_pos h]
  · intro hct hpk
    simp only [SSHSignRequest.validate, SSHUserCert, SSHHostCert]
    rw [if_neg (by tauto), if_pos (by simp [hpk])]
  · intro hct hpk hott
    simp only [SSHSignRequest.validate, SSHUserCert, SSHHostCert]
    rw [if_neg (by tauto), if_neg (by simpa [List.length_eq_zero] using hpk),
      if_pos ((hlen s.ott).mpr hott)]
  · intro hct hpk hott
    simp only [SSHSignRequest.validate, SSHUserCert, SSHHostCert]
    rw [if_neg (by tauto), if_neg (by simpa [List.length_eq_zero] using hpk),
      if_neg (fun h => hott ((hlen s.ott).mp h))]

theorem claim_C7_sign_request_validation_witness :
    SSHSignRequest.validate ⟨[1], "t", "X", [], 0, 0, none⟩ =
      .error "unknown certType X" ∧
    SSHSignRequest.validate ⟨[], "t", "", [], 0, 0, none⟩ =
      .error "missing or empty publicKey" ∧
    SSHSignRequest.validate ⟨[1], "", "user", [], 0, 0, none⟩ =
      .error "missing or empty ott" ∧
    SSHSignRequest.validate ⟨[1], "t", "host", [], 0, 0, none⟩ = .ok () :=
  ⟨(claim_C7_sign_request_validation _).1 (by decide),
   (claim_C7_sign_request_validation _).2.1 (by decide) rfl,
   (claim_C7_sign_request_validation _).2.2.1 (by decide) (by decide) rfl,
   (claim_C7_sign_request_validation _).2.2.2 (by decide) (by decide) (by decide)⟩

/-- C8: the Sign endpoint maps outcomes to statuses: bad body, validation
failure, or key-parse failure answer 400; an Authorize error answers 401; a
SignSSH or SignSSHAddUser error answers 403; full success answers 201 with
the sign response body. -/
theorem claim_C8_sign_status_codes (auth : SSHAuthorityModel) :
    (badRequestStatus = 400 ∧ unauthorizedStatus = 401 ∧ forbiddenStatus = 403 ∧
      statusCreated = 201) ∧
    (∀ msg, sshSign auth (.error msg) = .errorOut 400) ∧
    (∀ req e, req.validate = .error e → sshSign auth (.ok req) = .errorOut 400) ∧
    (∀ req e, req.validate = .ok () → parsePublicKey req.publicKey = .error e →
      sshSign auth (.ok req) = .errorOut 400) ∧
    (∀ req pk e, req.validate = .ok () → parsePublicKey req.publicKey = .ok pk →
      parseAddUserKey req.addUserPublicKey = .error e →
      sshSign auth (.ok req) = .errorOut 400) ∧
    (∀ req pk oak e, req.validate = .ok () → parsePublicKey req.publicKey = .ok pk →
      parseAddUserKey req.addUserPublicKey = .ok oak →
      auth.authorize req.ott = .error e →
      sshSign auth (.ok req) = .errorOut 401) ∧
    (∀ req pk oak opts e, req.validate = .ok () →
      parsePublicKey req.publicKey = .ok pk →
      parseAddUserKey req.addUserPublicKey = .ok oak →
      auth.authorize req.ott = .ok opts →
      auth.signSSH pk ⟨req.certType, req.principals, req.validBefore, req.validAfter⟩
        opts = .error e →
      sshSign auth (.ok req) = .errorOut 403) ∧
    (∀ req pk k opts cert e, req.validate = .ok () →
      parsePublicKey req.publicKey = .ok pk →
      parseAddUserKey req.addUserPublicKey = .ok (some k) →
      auth.authorize req.ott = .ok opts →
      auth.signSSH pk ⟨req.certType, req.principals, req.validBefore, req.validAfter⟩
        opts = .ok cert →
      cert.certType = sshUserCert → cert.validPrincipals.length = 1 →
      auth.signSSHAddUser k cert = .error e →
      sshSign auth (.ok req) = .errorOut 403) ∧
    (∀ req pk opts cert, req.validate = .ok () →
      parsePublicKey req.publicKey = .ok pk →
      parseAddUserKey req.addUserPublicKey = .ok none →
      auth.authorize req.ott = .ok opts →
      auth.signSSH pk ⟨req.certType, req.principals, req.validBefore, req.validAfter⟩
        opts = .ok cert →
      sshSign auth (.ok req) = .success 201 ⟨⟨some cert⟩, none⟩) ∧
    (∀ req pk k opts cert addUserCert, req.validate = .ok () →
      parsePublicKey req.publicKey = .ok pk →
      parseAddUserKey req.addUserPublicKey = .ok (some k) →
      auth.authorize req.ott = .ok opts →
      auth.signSSH pk ⟨req.certType, req.principals, req.validBefore, req.validAfter⟩
        opts = .ok cert →
      cert.certType = sshUserCert → cert.validPrincipals.length = 1 →
      auth.signSSHAddUser k cert = .ok addUserCert →
      sshSign auth (.ok req) = .success 201 ⟨⟨some cert⟩, some ⟨some addUserCert⟩⟩) := by
  refine ⟨⟨rfl, rfl, rfl, rfl⟩, ?_, ?_, ?_, ?_, ?_, ?_, ?_, ?_, ?_⟩
  · intro msg
    rfl
  · intro req e h1
    simp only [sshSign, h1]
    rfl
  · intro req e h1 h2
    simp only [sshSign, h1, h2]
    rfl
  · intro req pk e h1 h2 h3
    simp only [sshSign, h1, h2, h3]
    rfl
  · intro req pk oak e h1 h2 h3 h4
    simp only [sshSign, h1, h2, h3, h4]
    rfl
  · intro req pk oak opts e h1 h2 h3 h4 h5
    simp only [sshSign, h1, h2, h3, h4, h5]
    rfl
  · intro req pk k opts cert e h1 h2 h3 h4 h5 h6 h7 h8
    simp only [sshSign, h1, h2, h3, h4, h5, if_pos (And.intro h6 h7), h8]
    rfl
  · intro req pk opts cert h1 h2 h3 h4 h5
    simp only [sshSign, h1, h2, h3, h4, h5]
    rfl
  · intro req pk k opts cert addUserCert h1 h2 h3 h4 h5 h6 h7 h8
    simp only [sshSign, h1, h2, h3, h4, h5, if_pos (And.intro h6 h7), h8]
    rfl

theorem claim_C8_sign_status_codes_witness :
    sshSign authorityOkW (.error "bad body") = .errorOut 400 ∧
    sshSign authorityOkW (.ok ⟨[1], "t", "X", [], 0, 0, none⟩) = .errorOut 400 ∧
    sshSign authorityOkW (.ok ⟨[9], "t", "", [], 0, 0, none⟩) = .errorOut 400 ∧
    sshSign authorityOkW
      (.ok ⟨marshalPub (.ed25519 [1, 2, 3]), "t", "", [], 0, 0, some [9]⟩) =
      .errorOut 400 ∧
    sshSign authorityAuthFailW (.ok reqPlainW) = .errorOut 401 ∧
    sshSign authoritySignFailW (.ok reqPlainW) = .errorOut 403 ∧
    sshSign authorityAddUserFailW (.ok reqAddUserW) = .errorOut 403 ∧
    sshSign authorityOkW (.ok reqPlainW) = .success 201 ⟨⟨some certUW⟩, none⟩ ∧
    sshSign authorityOkW (.ok reqAddUserW) =
      .success 201 ⟨⟨some certUW⟩, some ⟨some certUW⟩⟩ :=
  ⟨(claim_C8_sign_status_codes authorityOkW).2.1 "bad body",
   (claim_C8_sign_status_codes authorityOkW).2.2.1 _ "unknown certType X" rfl,
   (claim_C8_sign_status_codes authorityOkW).2.2.2.1 _ .shortRead rfl rfl,
   (claim_C8_sign_status_codes authorityOkW).2.2.2.2.1 _ (.ed25519 [1, 2, 3])
     .shortRead rfl rfl rfl,
   (claim_C8_sign_status_codes authorityAuthFailW).2.2.2.2.2.1 _ (.ed25519 [1, 2, 3])
     none "token rejected" rfl rfl rfl rfl,
   (claim_C8_sign_status_codes authoritySignFailW).2.2.2.2.2.2.1 _ (.ed25519 [1, 2, 3])
     none [] "policy refused" rfl rfl rfl rfl rfl,
   (claim_C8_sign_status_codes authorityAddUserFailW).2.2.2.2.2.2.2.1 _
     (.ed25519 [1, 2, 3]) (.ed25519 [4]) [] certUW "refused"
     rfl rfl rfl rfl rfl rfl rfl rfl,
   (claim_C8_sign_status_codes authorityOkW).2.2.2.2.2.2.2.2.1 _ (.ed25519 [1, 2, 3])
     [] certUW rfl rfl rfl rfl rfl,
   (claim_C8_sign_status_codes authorityOkW).2.2.2.2.2.2.2.2.2 _ (.ed25519 [1, 2, 3])
     (.ed25519 [4]) [] certUW certUW rfl rfl rfl rfl rfl rfl rfl rfl⟩

theorem validateAuthority_eq (c : Config) :
    Config.validateAuthority c =
      ({ c with authorityConfig := (AuthConfig.validate c.authorityConfig).1 },
        (AuthConfig.validate c.authorityConfig).2) := by
  rcases h : AuthConfig.validate c.authorityConfig with ⟨ac, e⟩
  simp [Config.validateAuthority, h]

theorem tlsApplyDefaults_spec (t : TLSOptions) :
    (tlsApplyDefaults t).cipherSuites =
      (if t.cipherSuites = [] then DefaultTLSOptions.cipherSuites else t.cipherSuites) ∧
    (tlsApplyDefaults t).maxVersion =
      (if t.maxVersion = 0 then DefaultTLSOptions.maxVersion else t.maxVersion) ∧
    (tlsApplyDefaults t).minVersion =
      (if t.minVersion = 0 then (tlsApplyDefaults t).maxVersion else t.minVersion) ∧
    (tlsApplyDefaults t).renegotiation = t.renegotiation := by
  by_cases hcs : t.cipherSuites.length = 0 <;>
    by_cases hmax : t.maxVersion = 0 <;>
      by_cases hmin : t.minVersion = 0 <;>
        simp_all [tlsApplyDefaults, List.length_eq_zero]

theorem authValidate_success_frame (a : AuthConfig)
    (hs : (AuthConfig.validate (some a)).2 = none) :
    ∃ a', (AuthConfig.validate (some a)).1 = some a' ∧
      a'.provisioners = a.provisioners ∧
      a'.minCertDuration = a.minCertDuration ∧
      a'.maxCertDuration = a.maxCertDuration := by
  by_cases hp : a.provisioners.length = 0
  · simp [AuthConfig.validate, hp] at hs
  · rcases htmp : a.template with _ | tm
    · exact ⟨{ a with template := some {} },
        by simp [AuthConfig.validate, hp, htmp], rfl, rfl, rfl⟩
    · exact ⟨a, by simp [AuthConfig.validate, hp, htmp], rfl, rfl, rfl⟩

/-- C5: Config.Validate checks address, root, intermediate cert path,
intermediate key path, dnsNames, then the TLS constraint, then the authority
policy, in that exact order; the first failing check determines the reported
error and no later check runs — in particular the all-empty document reports
the address. -/
theorem claim_C5_validate_order (c : Config) :
    (c.address = "" → (c.validate).2 = some "address cannot be empty") ∧
    (c.address ≠ "" → c.root = "" → (c.validate).2 = some "root cannot be empty") ∧
    (c.address ≠ "" → c.root ≠ "" → c.intermediateCert = "" →
      (c.validate).2 = some "crt cannot be empty") ∧
    (c.address ≠ "" → c.root ≠ "" → c.intermediateCert ≠ "" →
      c.intermediateKey = "" → (c.validate).2 = some "key cannot be empty") ∧
    (c.address ≠ "" → c.root ≠ "" → c.intermediateCert ≠ "" →
      c.intermediateKey ≠ "" → c.dnsNames = [] →
      (c.validate).2 = some "dnsNames cannot be empty") ∧
    (∀ t, c.address ≠ "" → c.root ≠ "" → c.intermediateCert ≠ "" →
      c.intermediateKey ≠ "" → c.dnsNames ≠ [] → c.tls = some t →
      (tlsApplyDefaults t).minVersion > (tlsApplyDefaults t).maxVersion →
      (c.validate).2 = some "tls minVersion cannot exceed tls maxVersion") ∧
    (c.address ≠ "" → c.root ≠ "" → c.intermediateCert ≠ "" →
      c.intermediateKey ≠ "" → c.dnsNames ≠ [] →
      (c.tls = none ∨ ∃ t, c.tls = some t ∧
        ¬(tlsApplyDefaults t).minVersion > (tlsApplyDefaults t).maxVersion) →
      (c.validate).2 = (AuthConfig.validate c.authorityConfig).2) := by
  refine ⟨?_, ?_, ?_, ?_, ?_, ?_, ?_⟩
  · intro h1
    simp only [Config.validate, if_pos h1]
  · intro h1 h2
    simp only [Config.validate, if_neg h1, if_pos h2]
  · intro h1 h2 h3
    simp only [Config.validate, if_neg h1, if_neg h2, if_pos h3]
  · intro h1 h2 h3 h4
    simp only [Config.validate, if_neg h1, if_neg h2, if_neg h3, if_pos h4]
  · intro h1 h2 h3 h4 h5
    have hdns : c.dnsNames.length = 0 := by rw [h5]; rfl
    simp only [Config.validate, if_neg h1, if_neg h2, if_neg h3, if_neg h4,
      if_pos hdns]
  · intro t h1 h2 h3 h4 h5 ht hgt
    have hdns : ¬c.dnsNames.length = 0 := fun h => h5 (List.length_eq_zero.mp h)
    simp only [Config.validate, if_neg h1, if_neg h2, if_neg h3, if_neg h4,
      if_neg hdns, ht, if_pos hgt]
  · intro h1 h2 h3 h4 h5 hor
    have hdns : ¬c.dnsNames.length = 0 := fun h => h5 (List.length_eq_zero.mp h)
    rcases hor with hnone | ⟨t, ht, hle⟩
    · simp only [Config.validate, if_neg h1, if_neg h2, if_neg h3, if_neg h4,
        if_neg hdns, hnone, validateAuthority_eq]
    · simp only [Config.validate, if_neg h1, if_neg h2, if_neg h3, if_neg h4,
        if_neg hdns, ht, if_neg hle, validateAuthority_eq]

theorem claim_C5_validate_order_witness :
    (Config.validate ⟨"", "", "", "", [], none, none, none, none, ""⟩).2 =
      some "address cannot be empty" ∧
    (Config.validate ⟨"r", "c", "k", "a", ["d"], none, none, none,
        some ⟨[], mkRat 13 10, mkRat 12 10, false⟩, ""⟩).2 =
      some "tls minVersion cannot exceed tls maxVersion" ∧
    (Config.validate ⟨"r", "c", "k", "a", ["d"], none, none, none, none, ""⟩).2 =
      some "authority cannot be undefined" :=
  ⟨(claim_C5_validate_order _).1 rfl,
   (claim_C5_validate_order _).2.2.2.2.2.1 ⟨[], mkRat 13 10, mkRat 12 10, false⟩
     (by decide) (by decide) (by decide) (by decide) (by decide) rfl (by decide),
   (claim_C5_validate_order _).2.2.2.2.2.2
     (by decide) (by decide) (by decide) (by decide) (by decide) (Or.inl rfl)⟩

/-- C6: with a TLS policy present, validation defaults cipherSuites and
maxVersion from the built-in policy, then minVersion from the
already-defaulted maxVersion, fails when the defaulted minVersion exceeds
the defaulted maxVersion, and otherwise ORs the built-in renegotiation flag
into the configured one; with the TLS policy absent the built-in policy is
installed wholesale, so the resulting minVersion equals the built-in
maxVersion and renegotiation is false. -/
theorem claim_C6_tls_defaulting (c : Config)
    (h1 : c.address ≠ "") (h2 : c.root ≠ "") (h3 : c.intermediateCert ≠ "")
    (h4 : c.intermediateKey ≠ "") (h5 : c.dnsNames ≠ []) :
    (c.tls = none →
      (c.validate).1.tls = some DefaultTLSOptions ∧
      DefaultTLSOptions.minVersion = DefaultTLSOptions.maxVersion ∧
      DefaultTLSOptions.renegotiation = false) ∧
    (∀ t, c.tls = some t →
      ((tlsApplyDefaults t).cipherSuites =
          (if t.cipherSuites = [] then DefaultTLSOptions.cipherSuites
           else t.cipherSuites) ∧
        (tlsApplyDefaults t).maxVersion =
          (if t.maxVersion = 0 then DefaultTLSOptions.maxVersion else t.maxVersion) ∧
        (tlsApplyDefaults t).minVersion =
          (if t.minVersion = 0 then (tlsApplyDefaults t).maxVersion
           else t.minVersion)) ∧
      ((tlsApplyDefaults t).minVersion > (tlsApplyDefaults t).maxVersion →
        (c.validate).2 = some "tls minVersion cannot exceed tls maxVersion") ∧
      (¬(tlsApplyDefaults t).minVersion > (tlsApplyDefaults t).maxVersion →
        (c.validate).1.tls =
          some ({ tlsApplyDefaults t with
                  renegotiation :=
                    t.renegotiation || DefaultTLSOptions.renegotiation }))) := by
  have hdns : ¬c.dnsNames.length = 0 := by simpa [List.length_eq_zero] using h5
  constructor
  · intro hnone
    refine ⟨?_, by decide, by decide⟩
    simp only [Config.validate, if_neg h1, if_neg h2, if_neg h3, if_neg h4,
      if_neg hdns, hnone, validateAuthority_eq]
  · intro t ht
    obtain ⟨hsuites, hmax, hmin, hren⟩ := tlsApplyDefaults_spec t
    refine ⟨⟨hsuites, hmax, hmin⟩, ?_, ?_⟩
    · intro hgt
      simp only [Config.validate, if_neg h1, if_neg h2, if_neg h3, if_neg h4,
        if_neg hdns, ht, if_pos hgt]
    · intro hle
      simp only [Config.validate, if_neg h1, if_neg h2, if_neg h3, if_neg h4,
        if_neg hdns, ht, if_neg hle, validateAuthority_eq, hren]

theorem claim_C6_tls_defaulting_witness :
    (Config.validate ⟨"r", "c", "k", "a", ["d"], none, none, none, none, ""⟩).1.tls =
      some DefaultTLSOptions ∧
    DefaultTLSOptions.minVersion = DefaultTLSOptions.maxVersion ∧
    DefaultTLSOptions.renegotiation = false ∧
    (Config.validate ⟨"r", "c", "k", "a", ["d"], none, none, none,
        some ⟨[], 0, 0, false⟩, ""⟩).1.tls =
      some ⟨DefaultTLSOptions.cipherSuites, mkRat 12 10, mkRat 12 10, false⟩ :=
  have hfirst := (claim_C6_tls_defaulting
    ⟨"r", "c", "k", "a", ["d"], none, none, none, none, ""⟩
    (by decide) (by decide) (by decide) (by decide) (by decide)).1 rfl
  ⟨hfirst.1, hfirst.2.1, hfirst.2.2,
   ((claim_C6_tls_defaulting
      ⟨"r", "c", "k", "a", ["d"], none, none, none, some ⟨[], 0, 0, false⟩, ""⟩
      (by decide) (by decide) (by decide) (by decide) (by decide)).2
      ⟨[], 0, 0, false⟩ rfl).2.2 (by decide)⟩

/-- C9: authority-policy validation rejects a nil policy and, with a distinct
error, a policy whose provisioner list is empty; with at least one
provisioner it succeeds, installing the empty template when none is set. -/
theorem claim_C9_authority_policy_validation :
    AuthConfig.validate none = (none, some "authority cannot be undefined") ∧
    (∀ a : AuthConfig, a.provisioners = [] →
      AuthConfig.validate (some a) =
        (some a, some "authority.provisioners cannot be empty")) ∧
    (some "authority cannot be undefined" : Option String) ≠
      some "authority.provisioners cannot be empty" ∧
    (∀ a : AuthConfig, a.provisioners ≠ [] → a.template = none →
      AuthConfig.validate (some a) = (some { a with template := some {} }, none)) ∧
    (∀ (a : AuthConfig) (tm : ASN1DN), a.provisioners ≠ [] → a.template = some tm →
      AuthConfig.validate (some a) = (some a, none)) := by
  refine ⟨rfl, ?_, by decide, ?_, ?_⟩
  · intro a hp
    have hlen : a.provisioners.length = 0 := by rw [hp]; rfl
    simp only [AuthConfig.validate, if_pos hlen]
  · intro a hp htmp
    have hlen : ¬a.provisioners.length = 0 := fun h => hp (List.length_eq_zero.mp h)
    simp only [AuthConfig.validate, if_neg hlen, htmp]
  · intro a tm hp htmp
    have hlen : ¬a.provisioners.length = 0 := fun h => hp (List.length_eq_zero.mp h)
    simp only [AuthConfig.validate, if_neg hlen, htmp]

theorem claim_C9_authority_policy_validation_witness :
    AuthConfig.validate none = (none, some "authority cannot be undefined") ∧
    AuthConfig.validate (some ⟨[], none, none, none⟩) =
      (some ⟨[], none, none, none⟩, some "authority.provisioners cannot be empty") ∧
    AuthConfig.validate (some ⟨[⟨"iss", "jwk", none, ""⟩], none, none, none⟩) =
      (some ⟨[⟨"iss", "jwk", none, ""⟩], some {}, none, none⟩, none) ∧
    AuthConfig.validate
        (some ⟨[⟨"iss", "jwk", none, ""⟩], some ⟨"US", "", "", "", "", "", ""⟩, none, none⟩) =
      (some ⟨[⟨"iss", "jwk", none, ""⟩], some ⟨"US", "", "", "", "", "", ""⟩, none, none⟩,
        none) :=
  ⟨claim_C9_authority_policy_validation.1,
   claim_C9_authority_policy_validation.2.1 _ rfl,
   claim_C9_authority_policy_validation.2.2.2.1 _ (by decide) rfl,
   claim_C9_authority_policy_validation.2.2.2.2 _ ⟨"US", "", "", "", "", "", ""⟩
     (by decide) rfl⟩

/-- C10: on success, Config.Validate changes only the TLS policy field and
the authority template field; root, intermediate cert and key paths, address,
dnsNames, logger, monitoring, password, and the authority's provisioners and
duration fields are unchanged. On a required-field failure the document comes
back unchanged. -/
theorem claim_C10_validate_frame (c : Config) :
    ((c.validate).2 = none →
      (c.validate).1.root = c.root ∧
      (c.validate).1.intermediateCert = c.intermediateCert ∧
      (c.validate).1.intermediateKey = c.intermediateKey ∧
      (c.validate).1.address = c.address ∧
      (c.validate).1.dnsNames = c.dnsNames ∧
      (c.validate).1.logger = c.logger ∧
      (c.validate).1.monitoring = c.monitoring ∧
      (c.validate).1.password = c.password ∧
      (∀ a, c.authorityConfig = some a →
        ∃ a', (c.validate).1.authorityConfig = some a' ∧
          a'.provisioners = a.provisioners ∧
          a'.minCertDuration = a.minCertDuration ∧
          a'.maxCertDuration = a.maxCertDuration)) ∧
    ((c.address = "" ∨ c.root = "" ∨ c.intermediateCert = "" ∨
      c.intermediateKey = "" ∨ c.dnsNames = []) → (c.validate).1 = c) := by
  constructor
  · intro hsucc
    by_cases hA : c.address = ""
    · rw [Config.validate, if_pos hA] at hsucc
      exact absurd hsucc (by simp)
    by_cases hB : c.root = ""
    · rw [Config.validate, if_neg hA, if_pos hB] at hsucc
      exact absurd hsucc (by simp)
    by_cases hC : c.intermediateCert = ""
    · rw [Config.validate, if_neg hA, if_neg hB, if_pos hC] at hsucc
      exact absurd hsucc (by simp)
    by_cases hD : c.intermediateKey = ""
    · rw [Config.validate, if_neg hA, if_neg hB, if_neg hC, if_pos hD] at hsucc
      exact absurd hsucc (by simp)
    by_cases hE : c.dnsNames.length = 0
    · rw [Config.validate, if_neg hA, if_neg hB, if_neg hC, if_neg hD,
        if_pos hE] at hsucc
      exact absurd hsucc (by simp)
    have he : ∃ tv, c.validate = Config.validateAuthority { c with tls := tv } := by
      rcases htls : c.tls with _ | t
      · refine ⟨some DefaultTLSOptions, ?_⟩
        simp only [Config.validate, if_neg hA, if_neg hB, if_neg hC, if_neg hD,
          if_neg hE, htls]
      · by_cases hgt : (tlsApplyDefaults t).minVersion > (tlsApplyDefaults t).maxVersion
        · exfalso
          rw [Config.validate, if_neg hA, if_neg hB, if_neg hC, if_neg hD,
            if_neg hE] at hsucc
          simp only [htls, if_pos hgt] at hsucc
          exact Option.noConfusion hsucc
        · refine ⟨some ({ tlsApplyDefaults t with renegotiation := (tlsApplyDefaults t).renegotiation || DefaultTLSOptions.renegotiation }), ?_⟩
          simp only [Config.validate, if_neg hA, if_neg hB, if_neg hC, if_neg hD,
            if_neg hE, htls, if_neg hgt]
    obtain ⟨tv, he⟩ := he
    rw [he, validateAuthority_eq] at hsucc ⊢
    refine ⟨rfl, rfl, rfl, rfl, rfl, rfl, rfl, rfl, ?_⟩
    intro a ha
    simp only at hsucc ⊢
    rw [ha] at hsucc ⊢
    exact authValidate_success_frame a hsucc
  · intro hor
    simp only [Config.validate]
    split_ifs with hA hB hC hD hE
    · rfl
    · rfl
    · rfl
    · rfl
    · rfl
    · exfalso
      rcases hor with h | h | h | h | h
      · exact hA h
      · exact hB h
      · exact hC h
      · exact hD h
      · exact hE (by rw [h]; rfl)

theorem claim_C10_validate_frame_witness :
    ((Config.validate ⟨"r", "crt", "key", "addr", ["d"], some "log", some "mon",
        some ⟨[⟨"iss", "jwk", none, ""⟩], none, some 300, some 86400⟩, none,
        "pwd"⟩).1.root = "r" ∧
      ∃ a', (Config.validate ⟨"r", "crt", "key", "addr", ["d"], some "log",
          some "mon", some ⟨[⟨"iss", "jwk", none, ""⟩], none, some 300, some 86400⟩,
          none, "pwd"⟩).1.authorityConfig = some a' ∧
        a'.provisioners = [⟨"iss", "jwk", none, ""⟩] ∧
        a'.minCertDuration = some 300 ∧ a'.maxCertDuration = some 86400) ∧
    (Config.validate ⟨"", "", "", "", [], none, none, none, none, ""⟩).1 =
      ⟨"", "", "", "", [], none, none, none, none, ""⟩ :=
  have h := (claim_C10_validate_frame
    ⟨"r", "crt", "key", "addr", ["d"], some "log", some "mon",
      some ⟨[⟨"iss", "jwk", none, ""⟩], none, some 300, some 86400⟩, none, "pwd"⟩).1
    (by decide)
  ⟨⟨h.1, h.2.2.2.2.2.2.2.2 _ rfl⟩,
   (claim_C10_validate_frame ⟨"", "", "", "", [], none, none, none, none, ""⟩).2
     (Or.inl rfl)⟩

end Certificates
